import Mathlib

/-
Verification of the zcloudpass client core against its specification.

The embedding below translates the TypeScript source files:
  * src/src/lib/crypto.ts        (vault encryption / decryption)
  * src/src/App.tsx              (vault upload with version, password rotation)
  * src/unnamed/part_000         (api client: sessions, register, vault sync)

Platform primitives that live outside the repository (WebCrypto PBKDF2 and
AES-GCM, JSON.stringify / JSON.parse, the JavaScript Date parser, fetch) are
modelled symbolically or concretely as documented at each definition; all of
the repository's own control flow and data handling is translated directly.
-/

namespace ZCloudPass

/-! ## Data model (src/src/lib/crypto.ts lines 4-15)

The `VaultEntry` and `Vault` interfaces of crypto.ts: an entry has required
`id` and `name` and four optional string fields; a vault is an ordered list
of entries. -/

structure VaultEntry where
  id : String
  name : String
  username : Option String
  password : Option String
  url : Option String
  notes : Option String
deriving DecidableEq, Repr

structure Vault where
  entries : List VaultEntry
deriving DecidableEq, Repr

/-- Model of `createEmptyVault` (crypto.ts line 141): a vault with no
entries. -/
def createEmptyVault : Vault := ⟨[]⟩

/-! ## JSON serialization of a vault

`encryptVault` serializes the vault with `JSON.stringify(vault)`
(crypto.ts line 67).  The model implements that serialization concretely:
object properties appear in the declaration order of the interfaces,
`undefined` optional properties are skipped (as JSON.stringify does), and
strings are quoted with the escapes of ECMA-262 QuoteJSONString: `\"`,
`\\`, the short forms `\b \t \n \f \r`, and `\u00xx` (lowercase hex) for
the remaining control characters. -/

/-- Lowercase hex digit for a value below 16, as emitted by
JSON.stringify's unicode escapes. -/
def hexDig (n : Nat) : Char :=
  if n < 10 then Char.ofNat (48 + n) else Char.ofNat (87 + n)

/-- Escape of one character inside a JSON string literal
(ECMA-262 QuoteJSONString, used by `JSON.stringify`). -/
def escChar (c : Char) : List Char :=
  if c = '\"' then ['\\', '\"']
  else if c = '\\' then ['\\', '\\']
  else if c = '\x08' then ['\\', 'b']
  else if c = '\x09' then ['\\', 't']
  else if c = '\x0a' then ['\\', 'n']
  else if c = '\x0c' then ['\\', 'f']
  else if c = '\x0d' then ['\\', 'r']
  else if c.toNat < 32 then
    ['\\', 'u', '0', '0', hexDig (c.toNat / 16), hexDig (c.toNat % 16)]
  else [c]

/-- Escape of a whole character sequence. -/
def escStr : List Char → List Char
  | [] => []
  | c :: cs => escChar c ++ escStr cs

/-- A quoted JSON string literal. -/
def quoteStr (s : String) : List Char := '\"' :: (escStr s.data ++ ['\"'])

/-- One `"key":"value"` member of a JSON object. -/
def fieldJson (k : String) (v : String) : List Char :=
  '\"' :: (k.data ++ '\"' :: ':' :: quoteStr v)

/-- An optional member: absent (`undefined` in the source object, skipped
by JSON.stringify) or `,"key":"value"`. -/
def optFieldJson (k : String) (v : Option String) : List Char :=
  match v with
  | none => []
  | some s => ',' :: fieldJson k s

/-- Serialization of one vault entry, properties in interface order
`id, name, username, password, url, notes`. -/
def entryJson (e : VaultEntry) : List Char :=
  '\x7b' :: (fieldJson "id" e.id ++ ',' :: fieldJson "name" e.name
    ++ optFieldJson "username" e.username ++ optFieldJson "password" e.password
    ++ optFieldJson "url" e.url ++ optFieldJson "notes" e.notes ++ ['\x7d'])

/-- Serialization of the members of the entries array after the first
entry, up to and including the closing bracket. -/
def itemsTailJson : List VaultEntry → List Char
  | [] => [']']
  | e :: es => ',' :: (entryJson e ++ itemsTailJson es)

/-- Serialization of the members of the entries array, up to and
including the closing bracket. -/
def itemsJson : List VaultEntry → List Char
  | [] => [']']
  | e :: es => entryJson e ++ itemsTailJson es

/-- Opening of the vault object: the characters of `{"entries":[`. -/
def vaultOpenLit : List Char := '\x7b' :: '\"' :: ("entries".data ++ ['\"', ':', '['])

/-- Model of `JSON.stringify(vault)` for the Vault shape of crypto.ts. -/
def vaultJson (v : Vault) : String :=
  ⟨vaultOpenLit ++ itemsJson v.entries ++ ['\x7d']⟩

/-! ## JSON parsing of a vault

`decryptVault` runs `JSON.parse(vaultJson) as Vault` (crypto.ts line 124)
and thereafter uses the value as a Vault.  The model is a concrete
recursive-descent parser for exactly the canonical grammar that
`JSON.stringify` emits for a Vault, i.e. the strings that yield a
well-typed Vault under the source's unchecked cast; every other plaintext
makes the subsequent use of the value fail, which the source folds into
the same generic error (see `decryptVault`). -/

/-- Value of one hex digit as accepted by a JSON `\uXXXX` escape. -/
def hexVal (c : Char) : Option Nat :=
  if 48 ≤ c.toNat ∧ c.toNat ≤ 57 then some (c.toNat - 48)
  else if 97 ≤ c.toNat ∧ c.toNat ≤ 102 then some (c.toNat - 87)
  else if 65 ≤ c.toNat ∧ c.toNat ≤ 70 then some (c.toNat - 55)
  else none

/-- Value of a four-hex-digit escape payload. -/
def hex4 (a b c d : Char) : Option Nat :=
  match hexVal a, hexVal b, hexVal c, hexVal d with
  | some x, some y, some z, some w => some (((x * 16 + y) * 16 + z) * 16 + w)
  | _, _, _, _ => none

/-- Decoding of a one-character JSON escape. -/
def decodeSimpleEsc (c : Char) : Option Char :=
  if c = '\"' then some '\"'
  else if c = '\\' then some '\\'
  else if c = '/' then some '/'
  else if c = 'b' then some '\x08'
  else if c = 't' then some '\x09'
  else if c = 'n' then some '\x0a'
  else if c = 'f' then some '\x0c'
  else if c = 'r' then some '\x0d'
  else none

/-- Body of a JSON string literal after the opening quote: returns the
decoded characters and the input remaining after the closing quote. -/
def parseStrBody : List Char → Option (List Char × List Char)
  | [] => none
  | c :: rest =>
    if c = '\"' then some ([], rest)
    else if c = '\\' then
      match rest with
      | [] => none
      | e :: rest2 =>
        if e = 'u' then
          match rest2 with
          | h1 :: h2 :: h3 :: h4 :: rest3 =>
            match hex4 h1 h2 h3 h4 with
            | some n => (parseStrBody rest3).map (fun p => (Char.ofNat n :: p.1, p.2))
            | none => none
          | _ => none
        else
          match decodeSimpleEsc e with
          | some d => (parseStrBody rest2).map (fun p => (d :: p.1, p.2))
          | none => none
    else if c.toNat < 32 then none
    else (parseStrBody rest).map (fun p => (c :: p.1, p.2))

/-- Consume an exact literal character sequence. -/
def dropLit : List Char → List Char → Option (List Char)
  | [], input => some input
  | _ :: _, [] => none
  | l :: ls, c :: cs => if l = c then dropLit ls cs else none

/-- Parse a required `"key":"value"` member. -/
def parseField (k : String) (input : List Char) : Option (String × List Char) :=
  match dropLit ('\"' :: (k.data ++ ['\"', ':', '\"'])) input with
  | none => none
  | some r => (parseStrBody r).map (fun p => (⟨p.1⟩, p.2))

/-- Parse an optional `,"key":"value"` member; `some (none, input)` means
the member is absent. -/
def parseOptField (k : String) (input : List Char) :
    Option (Option String × List Char) :=
  match dropLit (',' :: '\"' :: (k.data ++ ['\"', ':', '\"'])) input with
  | none => some (none, input)
  | some r => (parseStrBody r).map (fun p => (some ⟨p.1⟩, p.2))

/-- Parse one vault entry object. -/
def parseEntry (input : List Char) : Option (VaultEntry × List Char) :=
  match dropLit ['\x7b'] input with
  | none => none
  | some r0 =>
    match parseField "id" r0 with
    | none => none
    | some (idv, r1) =>
      match dropLit [','] r1 with
      | none => none
      | some r1' =>
        match parseField "name" r1' with
        | none => none
        | some (namev, r2) =>
          match parseOptField "username" r2 with
          | none => none
          | some (userv, r3) =>
            match parseOptField "password" r3 with
            | none => none
            | some (pwv, r4) =>
              match parseOptField "url" r4 with
              | none => none
              | some (urlv, r5) =>
                match parseOptField "notes" r5 with
                | none => none
                | some (notesv, r6) =>
                  match dropLit ['\x7d'] r6 with
                  | none => none
                  | some r7 => some (⟨idv, namev, userv, pwv, urlv, notesv⟩, r7)

/-- Parse the members of the entries array after the first entry, up to
and including the closing bracket; `fuel` bounds the number of further
entries. -/
def parseItemsTail (fuel : Nat) (input : List Char) :
    Option (List VaultEntry × List Char) :=
  match input with
  | [] => none
  | c :: rest =>
    if c = ']' then some ([], rest)
    else if c = ',' then
      match fuel with
      | 0 => none
      | fuel' + 1 =>
        match parseEntry rest with
        | none => none
        | some (e, r) =>
          match parseItemsTail fuel' r with
          | none => none
          | some (es, r2) => some (e :: es, r2)
    else none

/-- Parse the members of the entries array, up to and including the
closing bracket. -/
def parseItems (fuel : Nat) (input : List Char) :
    Option (List VaultEntry × List Char) :=
  match input with
  | [] => none
  | c :: rest =>
    if c = ']' then some ([], rest)
    else
      match parseEntry (c :: rest) with
      | none => none
      | some (e, r) =>
        match parseItemsTail fuel r with
        | none => none
        | some (es, r2) => some (e :: es, r2)

/-- Model of `JSON.parse(s) as Vault` followed by the source's use of the
result as a Vault: succeeds exactly on the canonical serialization of a
vault. -/
def parseVaultCanonical (s : String) : Option Vault :=
  match dropLit vaultOpenLit s.data with
  | none => none
  | some r =>
    match parseItems r.length r with
    | none => none
    | some (es, r2) =>
      match r2 with
      | ['\x7d'] => some ⟨es⟩
      | _ => none

/-! ## Round trip of the vault JSON codec -/

theorem dropLit_append : ∀ (l r : List Char), dropLit l (l ++ r) = some r
  | [], r => rfl
  | c :: cs, r => by simp [dropLit, dropLit_append cs r]

theorem hex4_round : ∀ n : Nat, n < 32 →
    hex4 '0' '0' (hexDig (n / 16)) (hexDig (n % 16)) = some n := by decide

theorem parseStrBody_quote (X : List Char) :
    parseStrBody ('\"' :: X) = some ([], X) := by
  rw [parseStrBody.eq_def]; simp

theorem parseStrBody_simpleEsc (e d : Char) (he : e ≠ 'u')
    (hd : decodeSimpleEsc e = some d) (X : List Char) :
    parseStrBody ('\\' :: e :: X) =
      (parseStrBody X).map (fun p => (d :: p.1, p.2)) := by
  rw [parseStrBody.eq_def]; simp [he, hd]

theorem parseStrBody_uEsc (h1 h2 h3 h4 : Char) (n : Nat)
    (hx : hex4 h1 h2 h3 h4 = some n) (X : List Char) :
    parseStrBody ('\\' :: 'u' :: h1 :: h2 :: h3 :: h4 :: X) =
      (parseStrBody X).map (fun p => (Char.ofNat n :: p.1, p.2)) := by
  rw [parseStrBody.eq_def]; simp [hx]

theorem parseStrBody_plain (c : Char) (hq : c ≠ '\"') (hb : c ≠ '\\')
    (hc : ¬ c.toNat < 32) (X : List Char) :
    parseStrBody (c :: X) =
      (parseStrBody X).map (fun p => (c :: p.1, p.2)) := by
  rw [parseStrBody.eq_def]; simp [hq, hb, hc]

theorem parseStrBody_escStr (s rest : List Char) :
    parseStrBody (escStr s ++ '\"' :: rest) = some (s, rest) := by
  induction s with
  | nil => simp [escStr, parseStrBody_quote]
  | cons c cs ih =>
    simp only [escStr, List.append_assoc]
    by_cases h1 : c = '\"'
    · subst h1
      rw [show escChar '\"' = ['\\', '\"'] from rfl, List.cons_append,
        List.cons_append, List.nil_append,
        parseStrBody_simpleEsc '\"' '\"' (by decide) (by decide), ih]; rfl
    · by_cases h2 : c = '\\'
      · subst h2
        rw [show escChar '\\' = ['\\', '\\'] from rfl, List.cons_append,
          List.cons_append, List.nil_append,
          parseStrBody_simpleEsc '\\' '\\' (by decide) (by decide), ih]; rfl
      · by_cases h3 : c = '\x08'
        · subst h3
          rw [show escChar '\x08' = ['\\', 'b'] from rfl, List.cons_append,
            List.cons_append, List.nil_append,
            parseStrBody_simpleEsc 'b' '\x08' (by decide) (by decide), ih]; rfl
        · by_cases h4 : c = '\x09'
          · subst h4
            rw [show escChar '\x09' = ['\\', 't'] from rfl, List.cons_append,
              List.cons_append, List.nil_append,
              parseStrBody_simpleEsc 't' '\x09' (by decide) (by decide), ih]; rfl
          · by_cases h5 : c = '\x0a'
            · subst h5
              rw [show escChar '\x0a' = ['\\', 'n'] from rfl, List.cons_append,
                List.cons_append, List.nil_append,
                parseStrBody_simpleEsc 'n' '\x0a' (by decide) (by decide), ih]; rfl
            · by_cases h6 : c = '\x0c'
              · subst h6
                rw [show escChar '\x0c' = ['\\', 'f'] from rfl, List.cons_append,
                  List.cons_append, List.nil_append,
                  parseStrBody_simpleEsc 'f' '\x0c' (by decide) (by decide), ih]; rfl
              · by_cases h7 : c = '\x0d'
                · subst h7
                  rw [show escChar '\x0d' = ['\\', 'r'] from rfl, List.cons_append,
                    List.cons_append, List.nil_append,
                    parseStrBody_simpleEsc 'r' '\x0d' (by decide) (by decide), ih]; rfl
                · by_cases h8 : c.toNat < 32
                  · simp only [escChar, h1, h2, h3, h4, h5, h6, h7, h8, if_true,
                      if_false, ite_true, ite_false, List.cons_append, List.nil_append]
                    rw [parseStrBody_uEsc _ _ _ _ _ (hex4_round c.toNat h8),
                      Char.ofNat_toNat, ih]; rfl
                  · simp only [escChar, h1, h2, h3, h4, h5, h6, h7, h8, if_true,
                      if_false, ite_true, ite_false, List.cons_append, List.nil_append]
                    rw [parseStrBody_plain c h1 h2 h8, ih]; rfl

theorem parseField_round (k v : String) (rest : List Char) :
    parseField k (fieldJson k v ++ rest) = some (v, rest) := by
  have h : fieldJson k v ++ rest =
      ('\"' :: (k.data ++ ['\"', ':', '\"'])) ++ (escStr v.data ++ '\"' :: rest) := by
    simp [fieldJson, quoteStr]
  rw [parseField, h, dropLit_append]
  simp [parseStrBody_escStr]

theorem parseOptField_present (k v : String) (rest : List Char) :
    parseOptField k (optFieldJson k (some v) ++ rest) =
      some (some v, rest) := by
  have h : optFieldJson k (some v) ++ rest =
      (',' :: '\"' :: (k.data ++ ['\"', ':', '\"'])) ++ (escStr v.data ++ '\"' :: rest) := by
    simp [optFieldJson, fieldJson, quoteStr]
  rw [parseOptField, h, dropLit_append]
  simp [parseStrBody_escStr]

theorem parseNotes_step (nv : Option String) (rest : List Char) :
    parseOptField "notes" (optFieldJson "notes" nv ++ '\x7d' :: rest) =
      some (nv, '\x7d' :: rest) := by
  cases nv with
  | some s => exact parseOptField_present "notes" s ('\x7d' :: rest)
  | none => simp [optFieldJson, parseOptField, dropLit]

theorem parseUrl_step (uv nv : Option String) (rest : List Char) :
    parseOptField "url" (optFieldJson "url" uv ++
        (optFieldJson "notes" nv ++ '\x7d' :: rest)) =
      some (uv, optFieldJson "notes" nv ++ '\x7d' :: rest) := by
  cases uv with
  | some s => exact parseOptField_present "url" s _
  | none =>
    cases nv with
    | some s => simp [optFieldJson, fieldJson, parseOptField, dropLit]
    | none => simp [optFieldJson, parseOptField, dropLit]

theorem parsePw_step (pv uv nv : Option String) (rest : List Char) :
    parseOptField "password" (optFieldJson "password" pv ++
        (optFieldJson "url" uv ++ (optFieldJson "notes" nv ++ '\x7d' :: rest))) =
      some (pv, optFieldJson "url" uv ++ (optFieldJson "notes" nv ++ '\x7d' :: rest)) := by
  cases pv with
  | some s => exact parseOptField_present "password" s _
  | none =>
    cases uv with
    | some s => simp [optFieldJson, fieldJson, parseOptField, dropLit]
    | none =>
      cases nv with
      | some s => simp [optFieldJson, fieldJson, parseOptField, dropLit]
      | none => simp [optFieldJson, parseOptField, dropLit]

theorem parseUser_step (us pv uv nv : Option String) (rest : List Char) :
    parseOptField "username" (optFieldJson "username" us ++
        (optFieldJson "password" pv ++ (optFieldJson "url" uv ++
          (optFieldJson "notes" nv ++ '\x7d' :: rest)))) =
      some (us, optFieldJson "password" pv ++ (optFieldJson "url" uv ++
        (optFieldJson "notes" nv ++ '\x7d' :: rest))) := by
  cases us with
  | some s => exact parseOptField_present "username" s _
  | none =>
    cases pv with
    | some s => simp [optFieldJson, fieldJson, parseOptField, dropLit]
    | none =>
      cases uv with
      | some s => simp [optFieldJson, fieldJson, parseOptField, dropLit]
      | none =>
        cases nv with
        | some s => simp [optFieldJson, fieldJson, parseOptField, dropLit]
        | none => simp [optFieldJson, parseOptField, dropLit]

theorem parseEntry_round (e : VaultEntry) (rest : List Char) :
    parseEntry (entryJson e ++ rest) = some (e, rest) := by
  obtain ⟨idv, namev, us, pv, uv, nv⟩ := e
  have h : entryJson ⟨idv, namev, us, pv, uv, nv⟩ ++ rest =
      '\x7b' :: (fieldJson "id" idv ++ (',' :: (fieldJson "name" namev ++
        (optFieldJson "username" us ++ (optFieldJson "password" pv ++
          (optFieldJson "url" uv ++ (optFieldJson "notes" nv ++ '\x7d' :: rest))))))) := by
    simp [entryJson]
  rw [parseEntry, h]
  simp only [dropLit, if_pos, ite_true, parseField_round, parseUser_step,
    parsePw_step, parseUrl_step, parseNotes_step]

theorem entryJson_length_pos (e : VaultEntry) : 0 < (entryJson e).length := by
  simp [entryJson]

theorem itemsTailJson_length (es : List VaultEntry) :
    es.length ≤ (itemsTailJson es).length := by
  induction es with
  | nil => simp [itemsTailJson]
  | cons e es ih => simp [itemsTailJson]; omega

theorem itemsJson_length (es : List VaultEntry) :
    es.length ≤ (itemsJson es).length := by
  cases es with
  | nil => simp [itemsJson]
  | cons e es =>
    have h1 := entryJson_length_pos e
    have h2 := itemsTailJson_length es
    simp [itemsJson]; omega

theorem parseItemsTail_round :
    ∀ (es : List VaultEntry) (fuel : Nat) (rest : List Char),
      es.length ≤ fuel →
      parseItemsTail fuel (itemsTailJson es ++ rest) = some (es, rest) := by
  intro es
  induction es with
  | nil =>
    intro fuel rest _
    simp only [itemsTailJson, List.cons_append, List.nil_append]
    rw [parseItemsTail.eq_def]; simp
  | cons e es ih =>
    intro fuel rest hf
    cases fuel with
    | zero => simp at hf
    | succ fuel' =>
      have hf' : es.length ≤ fuel' := by simpa using hf
      simp only [itemsTailJson, List.cons_append, List.append_assoc]
      rw [parseItemsTail]
      simp only [if_neg (by decide : ¬(',' : Char) = ']'), if_pos rfl, ite_true,
        ite_false, parseEntry_round, ih fuel' rest hf']

theorem parseItems_round (es : List VaultEntry) (fuel : Nat) (rest : List Char)
    (hf : es.length ≤ fuel) :
    parseItems fuel (itemsJson es ++ rest) = some (es, rest) := by
  cases es with
  | nil => simp [itemsJson, parseItems]
  | cons e es =>
    have hf' : es.length ≤ fuel := by simp at hf; omega
    have hl : itemsJson (e :: es) ++ rest =
        '\x7b' :: ((fieldJson "id" e.id ++ ',' :: fieldJson "name" e.name
          ++ optFieldJson "username" e.username ++ optFieldJson "password" e.password
          ++ optFieldJson "url" e.url ++ optFieldJson "notes" e.notes ++ ['\x7d'])
          ++ (itemsTailJson es ++ rest)) := by
      simp [itemsJson, entryJson]
    have hrefold : '\x7b' :: ((fieldJson "id" e.id ++ ',' :: fieldJson "name" e.name
          ++ optFieldJson "username" e.username ++ optFieldJson "password" e.password
          ++ optFieldJson "url" e.url ++ optFieldJson "notes" e.notes ++ ['\x7d'])
          ++ (itemsTailJson es ++ rest)) = entryJson e ++ (itemsTailJson es ++ rest) := by
      simp [entryJson]
    rw [hl, parseItems]
    simp only [if_neg (by decide : ¬('\x7b' : Char) = ']'), ite_false]
    rw [hrefold, parseEntry_round]
    dsimp only
    rw [parseItemsTail_round es fuel rest hf']

theorem parseVaultCanonical_round (v : Vault) :
    parseVaultCanonical (vaultJson v) = some v := by
  obtain ⟨es⟩ := v
  have hlen : es.length ≤ (itemsJson es ++ ['\x7d']).length := by
    have := itemsJson_length es
    simp; omega
  have hdata : (vaultJson ⟨es⟩).data = vaultOpenLit ++ (itemsJson es ++ ['\x7d']) := by
    simp [vaultJson]
  rw [parseVaultCanonical, hdata, dropLit_append]
  dsimp only
  rw [parseItems_round es _ ['\x7d'] hlen]
  rfl

/-! ## Cryptographic layer (src/src/lib/crypto.ts lines 20-136)

The WebCrypto primitives PBKDF2 and AES-GCM are platform functions outside
the repository; they are modelled symbolically in the standard ideal-cipher
style: a derived key is an opaque value determined exactly by the
`(masterPassword, salt)` pair given to `deriveKey` (PBKDF2 is deterministic;
the ideal model treats it as collision-free), and an AES-GCM ciphertext+tag
is an opaque sealed box that opens to its plaintext exactly when key and IV
match, and fails tag verification otherwise. -/

/-- Model of `deriveKey` (crypto.ts lines 20-47): PBKDF2-SHA256 with
100000 iterations over (masterPassword, salt), yielding an AES-GCM key.
Deterministic in its two inputs; the ideal model is injective. -/
structure DerivedKey where
  password : String
  salt : List Nat
deriving DecidableEq, Repr

def deriveKey (masterPassword : String) (salt : List Nat) : DerivedKey :=
  ⟨masterPassword, salt⟩

/-- Symbolic AES-GCM ciphertext+tag: `crypto.subtle.encrypt` output for the
given key, IV and plaintext. -/
structure GcmSealed where
  key : DerivedKey
  iv : List Nat
  plaintext : String
deriving DecidableEq, Repr

/-- Symbolic `crypto.subtle.decrypt` for AES-GCM: recovers the plaintext
exactly when key and IV match the ones used to seal; otherwise the
128-bit tag verification fails. -/
def gcmOpen (key : DerivedKey) (iv : List Nat) (s : GcmSealed) : Option String :=
  if s.key = key ∧ s.iv = iv then some s.plaintext else none

/-- Model of the combined base64 blob `btoa(salt ‖ iv ‖ ciphertext+tag)`
built in `encryptVault` (crypto.ts lines 76-88).  Because the salt and IV
prefixes have the fixed lengths 16 and 12, concatenating and later slicing
at the fixed offsets [0,16), [16,28), [28,end) is faithfully represented by
this record; the ciphertext+tag part is the symbolic AES-GCM output. -/
structure EncodedBlob where
  salt : List Nat
  iv : List Nat
  sealed : GcmSealed
deriving DecidableEq, Repr

/-- Input domain of `decryptVault`: an arbitrary string either decodes
(via `atob` and the fixed-offset slicing) to a salt/iv/ciphertext triple,
or it is malformed (not base64, too short, or the data part is not a
well-formed ciphertext), in which case some stage of the `try` block
throws. -/
inductive CipherText where
  | malformed
  | blob (b : EncodedBlob)
deriving DecidableEq, Repr

/-- Model of `encryptVault` (crypto.ts lines 52-89).  The source draws
`salt` (16 bytes) and `iv` (12 bytes) from `crypto.getRandomValues`; the
model takes them as explicit parameters.  It derives the key from
(masterPassword, salt), seals `JSON.stringify(vault)` under (key, iv) and
returns the combined salt ‖ iv ‖ ciphertext blob. -/
def encryptVault (vault : Vault) (masterPassword : String)
    (salt iv : List Nat) : EncodedBlob :=
  ⟨salt, iv, ⟨deriveKey masterPassword salt, iv, vaultJson vault⟩⟩

/-- Base64 text encoding of the blob (`btoa`); decoded by `atob` plus the
fixed-offset slicing at the start of `decryptVault`. -/
def encodeBlob (b : EncodedBlob) : CipherText := .blob b

/-- Message of the single generic error thrown by `decryptVault`
(crypto.ts line 134). -/
def decryptionErrorMessage : String := "Failed to decrypt vault. Wrong password?"

/-- Model of `decryptVault` (crypto.ts lines 94-136).  The whole body runs
inside one `try` block: base64 decoding, slicing, AES-GCM decryption with
tag verification, UTF-8 decoding and `JSON.parse` all throw into the same
`catch`, which rethrows the single generic error; only a fully successful
pipeline returns a vault. -/
def decryptVault (encryptedVault : CipherText) (masterPassword : String) :
    Except String Vault :=
  match encryptedVault with
  | .malformed => .error decryptionErrorMessage
  | .blob b =>
    match gcmOpen (deriveKey masterPassword b.salt) b.iv b.sealed with
    | none => .error decryptionErrorMessage
    | some plain =>
      match parseVaultCanonical plain with
      | none => .error decryptionErrorMessage
      | some v => .ok v


/-! ## Claims C1 - C3 -/

/-- C1: for every vault `v` and every password `p`, decrypting the result
of encrypting `v` under `p` with the same password `p` returns a vault
equal to `v` (`decrypt(encrypt(v, p), p) == v`), for any salt and IV drawn
for the encryption. -/
theorem encrypt_decrypt_roundtrip (v : Vault) (p : String) (salt iv : List Nat) :
    decryptVault (encodeBlob (encryptVault v p salt iv)) p = .ok v := by
  simp [decryptVault, encodeBlob, encryptVault, gcmOpen, parseVaultCanonical_round]

/-- C2: for every input blob and password, `decryptVault` either succeeds
with a vault obtained from a complete pipeline (the input decodes to a
blob, AES-GCM tag verification passes with the key derived from the given
password and the blob's salt, and the decrypted plaintext parses as a
vault), or it fails with the single generic `DecryptionError` message —
the same value for text-decoding failures, tag-verification failures
(wrong password or corrupted blob, indistinguishable) and JSON parse
failures — and never returns partial or corrupted plaintext. -/
theorem decryptVault_fail_closed (input : CipherText) (p : String) :
    (∃ b v, input = .blob b ∧
        gcmOpen (deriveKey p b.salt) b.iv b.sealed = some b.sealed.plaintext ∧
        parseVaultCanonical b.sealed.plaintext = some v ∧
        decryptVault input p = .ok v) ∨
      decryptVault input p = .error decryptionErrorMessage := by
  cases input with
  | malformed => right; rfl
  | blob b =>
    by_cases hkey : b.sealed.key = deriveKey p b.salt ∧ b.sealed.iv = b.iv
    · have hopen : gcmOpen (deriveKey p b.salt) b.iv b.sealed =
          some b.sealed.plaintext := by simp [gcmOpen, hkey]
      cases hparse : parseVaultCanonical b.sealed.plaintext with
      | none => right; simp [decryptVault, hopen, hparse]
      | some v =>
        left
        exact ⟨b, v, rfl, hopen, hparse, by simp [decryptVault, hopen, hparse]⟩
    · right
      have hopen : gcmOpen (deriveKey p b.salt) b.iv b.sealed = none := by
        simp only [gcmOpen, if_neg hkey]
      simp [decryptVault, hopen]

/-- C3: for every vault `v` and distinct passwords `p1 ≠ p2`, decrypting
`encryptVault v p1` with `p2` fails with the generic `DecryptionError`
(the derived keys differ, so AES-GCM tag verification fails); it never
returns a vault. -/
theorem wrong_password_rejected (v : Vault) (p1 p2 : String)
    (salt iv : List Nat) (h : p1 ≠ p2) :
    decryptVault (encodeBlob (encryptVault v p1 salt iv)) p2 =
      .error decryptionErrorMessage := by
  have hne : deriveKey p1 salt ≠ deriveKey p2 salt := by
    intro hk
    exact h (congrArg DerivedKey.password hk)
  simp [decryptVault, encodeBlob, encryptVault, gcmOpen, hne]

/-- Witness for C3 at concrete inputs: passwords "a" and "b" differ, and
decryption of an empty vault encrypted under "a" fails under "b". -/
theorem wrong_password_rejected_witness :
    ("a" : String) ≠ "b" ∧
      decryptVault (encodeBlob (encryptVault createEmptyVault "a" [0] [1])) "b" =
        .error decryptionErrorMessage :=
  ⟨by decide, wrong_password_rejected createEmptyVault "a" "b" [0] [1] (by decide)⟩


/-! ## HTTP api client (src/unnamed/part_000)

The `fetch` transport is external: each model takes the relevant server
responses as explicit parameters and mirrors the source's control flow over
them.  `Response.ok` is status in [200, 299]. -/

/-- Model of the `res.ok` property of a fetch Response. -/
def respOk (status : Nat) : Bool := 200 ≤ status && status ≤ 299

/-! ## Expiry normalization (part_000 lines 14-32, `normalizeExpiresToISO`)

`new Date(string)` is a host primitive.  ECMA-262 fixes only the ISO
format; for the space-separated `YYYY-MM-DD HH:MM:SS` form the behavior is
implementation-defined: every major engine (V8, SpiderMonkey, JavaScriptCore)
accepts it and interprets it in the host's local time zone.  The model makes
the host explicit: `nowMs` is `Date.now()`, `tzOffsetMin` the local-time
offset from UTC in minutes, and `acceptsSpaceForm` whether the engine's
`Date` constructor parses the space-separated form (true on all major
engines).  Timestamps are absolute instants in milliseconds;
`Date.prototype.toISOString` is injective on instants, so the model returns
the instant denoted by the ISO string the source returns. -/

structure JsEnv where
  nowMs : Int
  tzOffsetMin : Int
  acceptsSpaceForm : Bool

/-- Input domain of `normalizeExpiresToISO`, by the syntactic class of the
`expires` string: empty; a valid ISO timestamp denoting instant `ms`; the
space-separated `YYYY-MM-DD HH:MM:SS` form whose digits read as a UTC
timestamp give instant `naiveMs`; or a string that neither `new Date(s)`
nor `new Date(s.replace(" ", "T") + "Z")` can parse. -/
inductive ExpiresInput where
  | empty
  | isoUtc (ms : Int)
  | spaceSeparated (naiveMs : Int)
  | unparseable
deriving DecidableEq, Repr

/-- Model of `new Date(expires)` / `isFinite(d.getTime())` (line 16): ISO
strings parse to their instant; the space-separated form parses as local
time when the engine accepts it; the empty and unparseable strings give an
invalid date. -/
def jsDateParse (env : JsEnv) : ExpiresInput → Option Int
  | .empty => none
  | .isoUtc ms => some ms
  | .spaceSeparated naive =>
    if env.acceptsSpaceForm then some (naive - env.tzOffsetMin * 60000) else none
  | .unparseable => none

/-- Model of the regex test on line 19: matches exactly the
space-separated form. -/
def matchesSpaceRegex : ExpiresInput → Bool
  | .spaceSeparated _ => true
  | _ => false

/-- Model of `new Date(expires.replace(" ", "T") + "Z")` (lines 20-21 and
26-27): the space-separated form becomes a UTC timestamp; an ISO string
gains a second zone designator and becomes invalid; the other classes stay
unparseable. -/
def jsDateParseForcedUtc : ExpiresInput → Option Int
  | .spaceSeparated naive => some naive
  | _ => none

/-- Emptiness test `!expires` on line 15. -/
def isEmptyExpires : ExpiresInput → Bool
  | .empty => true
  | _ => false

/-- Model of `normalizeExpiresToISO` (part_000 lines 14-32), returning the
instant denoted by the produced ISO string.  Branch for branch: empty
string gives now + 1h; a string the engine's `Date` parses is passed
through; otherwise the space-regex branch retries with `" "` replaced by
`"T"` plus a trailing `"Z"`; the `try` block repeats that same transform;
and the final fallback is again now + 1h. -/
def normalizeExpiresToISO (env : JsEnv) (expires : ExpiresInput) : Int :=
  if isEmptyExpires expires then env.nowMs + 60 * 60 * 1000
  else
    match jsDateParse env expires with
    | some ms => ms
    | none =>
      if matchesSpaceRegex expires then
        match jsDateParseForcedUtc expires with
        | some ms => ms
        | none =>
          match jsDateParseForcedUtc expires with
          | some ms => ms
          | none => env.nowMs + 60 * 60 * 1000
      else
        match jsDateParseForcedUtc expires with
        | some ms => ms
        | none => env.nowMs + 60 * 60 * 1000

/-! ## Session creation fallback chain (part_000 lines 88-125) -/

/-- The four endpoint shapes tried by `createSessionForEmail`:
`/api/v1/auth/session`, `/api/v1/auth/login`, `/auth/session`,
`/auth/login`. -/
inductive AuthEndpoint where
  | v1Session
  | v1Login
  | rootSession
  | rootLogin
deriving DecidableEq, Repr

/-- The fixed order of the fallback chain. -/
def sessionChain : List AuthEndpoint :=
  [.v1Session, .v1Login, .rootSession, .rootLogin]

/-- The POSTs issued by one `createSessionForEmail` call and the status of
the last response obtained. -/
structure SessionAttempt where
  attempts : List AuthEndpoint
  finalStatus : Nat
deriving DecidableEq, Repr

/-- Model of the fallback sequencing of `createSessionForEmail` (lines
95-109): POST the primary endpoint, and after each 404 response try the
next shape; stop at the first non-404. -/
def createSessionAttempts (env : AuthEndpoint → Nat) : SessionAttempt :=
  let res := env .v1Session
  let a := [AuthEndpoint.v1Session]
  let s1 := if res = 404 then (a ++ [AuthEndpoint.v1Login], env .v1Login) else (a, res)
  let s2 := if s1.2 = 404 then (s1.1 ++ [AuthEndpoint.rootSession], env .rootSession) else s1
  let s3 := if s2.2 = 404 then (s2.1 ++ [AuthEndpoint.rootLogin], env .rootLogin) else s2
  ⟨s3.1, s3.2⟩

/-! ## Registration (part_000 lines 162-196) -/

/-- Network and storage actions observable in the api client. -/
inductive ApiEv where
  | postRegister
  | postAuth (e : AuthEndpoint)
  | saveSession
deriving DecidableEq, Repr

/-- Events of one `createSessionForEmail` call (lines 88-125) and whether
it succeeds: the chain of POSTs, then — only when the final response is
ok — the session is normalized and persisted by `saveSession`; a non-ok
final response throws instead. -/
def createSessionEvents (env : AuthEndpoint → Nat) : List ApiEv × Bool :=
  let r := createSessionAttempts env
  (r.attempts.map ApiEv.postAuth ++
      (if respOk r.finalStatus then [ApiEv.saveSession] else []),
    respOk r.finalStatus)

/-- Model of `registerUser` (lines 162-196): throws before any network
call when email or masterPassword is missing; POSTs `/auth/register`; on a
non-ok response throws; on success runs `createSessionForEmail` (which
persists the session) before returning the registration response.  The
Bool is true exactly when the whole call returns normally. -/
def registerUserModel (email masterPassword : String) (registerStatus : Nat)
    (env : AuthEndpoint → Nat) : List ApiEv × Bool :=
  if email = "" then ([], false)
  else if masterPassword = "" then ([], false)
  else
    if respOk registerStatus then
      let s := createSessionEvents env
      (ApiEv.postRegister :: s.1, s.2)
    else ([ApiEv.postRegister], false)

/-! ## Vault update request body (part_000 lines 244-245) -/

/-- JSON values appearing in the PUT body. -/
inductive JsonVal where
  | str (s : String)
  | num (n : Nat)
deriving DecidableEq, Repr

/-- Model of the `payload` object built by `updateVault`: always
`encrypted_vault`, plus `vault_version` exactly when the caller passed a
number (`typeof vault_version === "number"`; the TypeScript signature
restricts the argument to `number | undefined`). -/
def updateVaultPayload (encryptedVault : String) (vault_version : Option Nat) :
    List (String × JsonVal) :=
  let payload := [("encrypted_vault", JsonVal.str encryptedVault)]
  match vault_version with
  | some n => payload ++ [("vault_version", JsonVal.num n)]
  | none => payload

/-! ## Error construction on vault update (part_000 lines 66-77, 253-265) -/

/-- The fields of a JSON error body that `parseErrorResponse` reads. -/
structure JsonBody where
  error : Option String
  code : Option String
  message : Option String
deriving DecidableEq, Repr

/-- A server response as seen by the error path: status plus the JSON
body, `none` when `res.json()` throws (non-JSON body). -/
structure HttpResponse where
  status : Nat
  body : Option JsonBody
deriving DecidableEq, Repr

/-- JavaScript `a || b` over optional strings: the empty string is falsy. -/
def jsOrStr (a b : Option String) : Option String :=
  match a with
  | some s => if s = "" then b else some s
  | none => b

/-- The `code` field of `parseErrorResponse` (line 70):
`body?.error || body?.code`, absent when the body is not JSON. -/
def parsedErrorCode (res : HttpResponse) : Option String :=
  match res.body with
  | none => none
  | some b => jsOrStr b.error b.code

/-- JavaScript `a || d` where `a` is an optional string and `d` a default:
undefined and the empty string fall back to the default. -/
def jsOrDefault (a : Option String) (d : String) : String :=
  match a with
  | none => d
  | some s => if s = "" then d else s

/-- The `.code` of the error thrown by `updateVault` for a given response,
`none` when no error is thrown (lines 253-265): a 409 throws with
`err.code || "conflict"`; any other non-ok status throws with
`err.code || "http_<status>"`.  The thrown values are plain `Error`
objects whose machine-readable identity is this code string. -/
def updateVaultErrorCode (res : HttpResponse) : Option String :=
  if res.status = 409 then
    some (jsOrDefault (parsedErrorCode res) "conflict")
  else if respOk res.status = false then
    some (jsOrDefault (parsedErrorCode res) ("http_" ++ toString res.status))
  else none


/-! ## Vault upload and password rotation (src/src/App.tsx lines 166-273)

The second App component keeps `vaultVersion` in React state, uploads with
`putVaultWithVersion` and rotates the master password with
`handleChangePassword`.  The models below take the server-side outcomes as
an explicit environment and mirror the source's control flow. -/

/-- Environment of one `putVaultWithVersion` call: the session token (from
`getSessionToken`), the PUT response status, the `vault_version` the
server echoes in a successful response body (the source never reads it),
and the outcome of the 409-path refetch: `none` when that `getVault` call
throws, otherwise the `(encrypted_vault, vault_version)` it returns, plus
whether decrypting the refetched blob succeeds. -/
structure PutEnv where
  token : Option String
  putStatus : Nat
  putEchoVersion : Option Nat
  refetch : Option (Option String × Option Nat)
  refetchDecryptOk : Bool
deriving DecidableEq, Repr

/-- How a `putVaultWithVersion` call ends: an exception propagates, or the
function returns `{ ok: false, conflict: true }`, or `{ ok: true,
conflict: false }`. -/
inductive PutOutcome where
  | threw
  | conflict
  | ok
deriving DecidableEq, Repr

/-- Model of `putVaultWithVersion` (App.tsx lines 166-205): result and the
new local `vaultVersion`.  No token throws.  A 409 refetches the vault
(a throwing refetch or failing decryption propagates), adopts the
refetched version when it is a number, and reports conflict.  Any other
non-ok status throws.  On success `setVaultVersion((v) => v + 1)` runs —
the success response body, echoed version included, is never read. -/
def putVaultWithVersion (env : PutEnv) (vaultVersion : Nat) :
    PutOutcome × Nat :=
  match env.token with
  | none => (.threw, vaultVersion)
  | some _ =>
    if env.putStatus = 409 then
      match env.refetch with
      | none => (.threw, vaultVersion)
      | some (encBlob, ver) =>
        match encBlob with
        | some _ =>
          if env.refetchDecryptOk then
            match ver with
            | some n => (.conflict, n)
            | none => (.conflict, vaultVersion)
          else (.threw, vaultVersion)
        | none => (.conflict, vaultVersion)
    else if respOk env.putStatus = false then (.threw, vaultVersion)
    else (.ok, vaultVersion + 1)

/-- Environment of one `handleChangePassword` call: the outcome of the
initial `getVault` (`none` when it throws, otherwise the blob and version
it returns), whether decrypting that blob with the current password
succeeds, and the `putVaultWithVersion` environment.  The final
`apiChangePassword` POST needs no outcome here: its failure is caught
after the endpoint has already been invoked. -/
structure RotEnv where
  getVault1 : Option (Option String × Option Nat)
  decryptOldOk : Bool
  put : PutEnv
deriving DecidableEq, Repr

/-- Calls observable during `handleChangePassword`. -/
inductive RotEv where
  | callGetVault
  | callDecryptOld
  | callPutVault
  | callChangePassword
deriving DecidableEq, Repr

/-- Continuation of `handleChangePassword` after the decrypt step: the
re-encrypted vault is uploaded with `putVaultWithVersion`; a conflict
alerts and returns, a throw is caught — in both cases before
`apiChangePassword` — and only the ok outcome reaches the
credential-change endpoint. -/
def rotAfterDecrypt (env : RotEnv) (vaultVersion : Nat) (evs : List RotEv) :
    List RotEv :=
  match (putVaultWithVersion env.put vaultVersion).1 with
  | .ok => evs ++ [.callPutVault, .callChangePassword]
  | _ => evs ++ [.callPutVault]

/-- Model of `handleChangePassword` (App.tsx lines 238-273) as the list of
calls it makes, in order: it returns early when either password field is
empty; fetches the vault (a throw is caught); decrypts only when a blob
came back (a throw is caught); re-encrypts under the new password; uploads
via `putVaultWithVersion`; and invokes the credential-change endpoint only
after that upload returned ok. -/
def handleChangePassword (cur new : String) (env : RotEnv)
    (vaultVersion : Nat) : List RotEv :=
  if cur = "" ∨ new = "" then []
  else
    match env.getVault1 with
    | none => [.callGetVault]
    | some (encBlob, _) =>
      match encBlob with
      | some _ =>
        if env.decryptOldOk then
          rotAfterDecrypt env vaultVersion [.callGetVault, .callDecryptOld]
        else [.callGetVault, .callDecryptOld]
      | none => rotAfterDecrypt env vaultVersion [.callGetVault]


/-! ## Claims C4 - C10 -/

/-- Helper: a `putVaultWithVersion` call can only end in `ok` when the PUT
response status was a success status (and in particular not 409). -/
theorem put_ok_iff (env : PutEnv) (n : Nat) :
    (putVaultWithVersion env n).1 = .ok →
      respOk env.putStatus = true ∧ env.putStatus ≠ 409 := by
  intro h
  unfold putVaultWithVersion at h
  cases htok : env.token with
  | none => rw [htok] at h; simp at h
  | some t =>
    rw [htok] at h
    by_cases h409 : env.putStatus = 409
    · rw [if_pos h409] at h
      cases hr : env.refetch with
      | none => rw [hr] at h; simp at h
      | some p =>
        rw [hr] at h
        obtain ⟨blob, ver⟩ := p
        cases blob <;> cases ver <;>
          simp_all [PutOutcome.threw, PutOutcome.conflict] <;>
          split at h <;> simp_all
    · rw [if_neg h409] at h
      by_cases hok : respOk env.putStatus = false
      · rw [if_pos hok] at h; simp at h
      · simp at hok
        exact ⟨hok, h409⟩

/-- C4: in every execution of the password-rotation flow in which the
vault-upload step reports a version conflict (HTTP 409), the
credential-change endpoint is never invoked; and whenever the
credential-change endpoint is invoked, the vault upload returned a success
status and the credential-change call comes directly after the upload in
the call sequence. -/
theorem rotation_conflict_aborts (cur new : String) (env : RotEnv) (n : Nat) :
    (env.put.putStatus = 409 →
      RotEv.callChangePassword ∉ handleChangePassword cur new env n) ∧
    (RotEv.callChangePassword ∈ handleChangePassword cur new env n →
      respOk env.put.putStatus = true ∧
      ∃ pre, handleChangePassword cur new env n =
        pre ++ [RotEv.callPutVault, RotEv.callChangePassword]) := by
  unfold handleChangePassword
  by_cases hemp : cur = "" ∨ new = ""
  · simp [hemp]
  · rw [if_neg hemp]
    cases hg : env.getVault1 with
    | none => simp
    | some p =>
      obtain ⟨blob, ver⟩ := p
      cases blob with
      | none =>
        unfold rotAfterDecrypt
        cases hput : (putVaultWithVersion env.put n).1 with
        | ok =>
          have hr := put_ok_iff env.put n hput
          simp [hput, hr.1, hr.2]
          exact ⟨[RotEv.callGetVault], rfl⟩
        | threw => simp [hput]
        | conflict => simp [hput]
      | some b =>
        by_cases hd : env.decryptOldOk
        · rw [if_pos hd]
          unfold rotAfterDecrypt
          cases hput : (putVaultWithVersion env.put n).1 with
          | ok =>
            have hr := put_ok_iff env.put n hput
            simp [hput, hr.1, hr.2]
            exact ⟨[RotEv.callGetVault, RotEv.callDecryptOld], rfl⟩
          | threw => simp [hput]
          | conflict => simp [hput]
        · rw [if_neg hd]
          simp

/-- Witness for C4 at a concrete environment whose vault upload answers
409: the credential-change endpoint is not among the calls made. -/
theorem rotation_conflict_aborts_witness :
    RotEv.callChangePassword ∉
      handleChangePassword "old" "new"
        ⟨some (some "blob", some 3), true,
          ⟨some "tok", 409, none, some (some "blob2", some 7), true⟩⟩ 3 :=
  (rotation_conflict_aborts "old" "new"
    ⟨some (some "blob", some 3), true,
      ⟨some "tok", 409, none, some (some "blob2", some 7), true⟩⟩ 3).1 rfl

/-- Counterexample to C5 as stated: a successful PUT (status 200) whose
response body echoes vault_version 100, issued with expectedVersion 5,
leaves the local version at 6, not at the echoed 100 — the echoed value
never wins. -/
theorem putVault_echo_ignored_counterexample :
    putVaultWithVersion ⟨some "t", 200, some 100, none, true⟩ 5 = (.ok, 6) ∧
    (6 : Nat) ≠ 100 := by decide

/-- C5 (amended): for every successful vault update issued with
expectedVersion = n, the caller's local vault version is set to n + 1
unconditionally; the success response body — an echoed version included —
is never read. -/
theorem putVault_success_increments (env : PutEnv) (n : Nat)
    (hs : respOk env.putStatus = true) (ht : env.token.isSome = true) :
    putVaultWithVersion env n = (.ok, n + 1) := by
  obtain ⟨t, hts⟩ := Option.isSome_iff_exists.mp ht
  have h409 : env.putStatus ≠ 409 := by
    intro h; rw [h] at hs; simp [respOk] at hs
  simp [putVaultWithVersion, hts, h409, hs]

/-- Witness for C5 (amended) at a concrete environment. -/
theorem putVault_success_increments_witness :
    respOk 200 = true ∧ Option.isSome (some "t") = true ∧
    putVaultWithVersion ⟨some "t", 200, none, none, true⟩ 5 = (.ok, 6) :=
  ⟨by decide, by decide,
    putVault_success_increments ⟨some "t", 200, none, none, true⟩ 5 (by decide) (by decide)⟩

/-- Counterexample to C6 as stated: a 409 response with no body code
throws with code "conflict", but so does a 400 response whose JSON body
carries the server-supplied code "conflict"; the two failures have the
same machine-readable identity although one is not a conflict. -/
theorem updateVault_code_collision :
    updateVaultErrorCode ⟨409, none⟩ = some "conflict" ∧
    updateVaultErrorCode ⟨400, some ⟨some "conflict", none, none⟩⟩ = some "conflict" ∧
    (400 : Nat) ≠ 409 ∧ respOk 400 = false := by decide

/-- C6 (amended): when the server supplies no usable error code, a 409
makes `updateVault` throw with code "conflict" and every other failing
status with code "http_<status>", which is never equal to "conflict"; so
the default conflict identity arises only at 409 and is then
distinguishable from all other failures. -/
theorem updateVault_conflict_code (res : HttpResponse)
    (hnc : parsedErrorCode res = none) :
    (res.status = 409 → updateVaultErrorCode res = some "conflict") ∧
    (res.status ≠ 409 → respOk res.status = false →
      updateVaultErrorCode res = some ("http_" ++ toString res.status)) ∧
    (∀ s : Nat, ("http_" ++ toString s) ≠ "conflict") := by
  refine ⟨?_, ?_, ?_⟩
  · intro h; simp [updateVaultErrorCode, h, hnc, jsOrDefault]
  · intro h1 h2; simp [updateVaultErrorCode, h1, h2, hnc, jsOrDefault]
  · intro s h
    have hd := congrArg String.data h
    rw [String.data_append] at hd
    simp at hd

/-- Witness for C6 (amended) at concrete responses without body codes. -/
theorem updateVault_conflict_code_witness :
    updateVaultErrorCode ⟨409, none⟩ = some "conflict" ∧
    updateVaultErrorCode ⟨500, none⟩ = some ("http_" ++ toString 500) := by
  have h1 := updateVault_conflict_code ⟨409, none⟩ (by decide)
  have h2 := updateVault_conflict_code ⟨500, none⟩ (by decide)
  exact ⟨h1.1 rfl, h2.2.1 (by decide) (by decide)⟩

/-- C7: on a host that parses the space-separated form (every major
engine) with local time one hour ahead of UTC, normalizing
"2024-01-01 12:00:00" yields the instant 2024-01-01T11:00:00Z
(1704106800000 ms) — the local-time interpretation — and not the UTC
instant 2024-01-01T12:00:00Z (1704110400000 ms) the claim states; the
empty and unparseable inputs do yield now + 1 hour, a valid ISO timestamp
does pass through unchanged, and the dedicated treat-as-UTC branch fires
only when the engine rejects the space-separated form. -/
theorem normalizeExpires_results :
    normalizeExpiresToISO ⟨0, 60, true⟩ (.spaceSeparated 1704110400000) = 1704106800000 ∧
    (1704106800000 : Int) ≠ 1704110400000 ∧
    (∀ env : JsEnv, normalizeExpiresToISO env .empty = env.nowMs + 60 * 60 * 1000) ∧
    (∀ env : JsEnv, normalizeExpiresToISO env .unparseable = env.nowMs + 60 * 60 * 1000) ∧
    (∀ (env : JsEnv) (ms : Int), normalizeExpiresToISO env (.isoUtc ms) = ms) ∧
    (∀ (env : JsEnv) (naive : Int), env.acceptsSpaceForm = false →
      normalizeExpiresToISO env (.spaceSeparated naive) = naive) := by
  refine ⟨by decide, by decide, ?_, ?_, ?_, ?_⟩
  · intro env
    simp [normalizeExpiresToISO, isEmptyExpires, jsDateParse, matchesSpaceRegex,
      jsDateParseForcedUtc]
  · intro env
    simp [normalizeExpiresToISO, isEmptyExpires, jsDateParse, matchesSpaceRegex,
      jsDateParseForcedUtc]
  · intro env ms
    simp [normalizeExpiresToISO, isEmptyExpires, jsDateParse]
  · intro env naive hacc
    simp [normalizeExpiresToISO, isEmptyExpires, jsDateParse, hacc,
      matchesSpaceRegex, jsDateParseForcedUtc]

/-- Witness for C7 at a concrete host that rejects the space-separated
form: the dedicated branch then gives the UTC reading. -/
theorem normalizeExpires_results_witness :
    normalizeExpiresToISO ⟨0, 0, false⟩ (.spaceSeparated 42) = 42 :=
  normalizeExpires_results.2.2.2.2.2 ⟨0, 0, false⟩ 42 rfl

/-- C8: for every assignment of response statuses, the session-creation
attempts are a nonempty prefix of the fixed chain v1Session, v1Login,
rootSession, rootLogin; every response before the last was 404; the final
status is the last attempt's response; a 404 final status means the whole
chain was exhausted (so a non-404 response stops the chain); and a
non-404, non-success final response makes the call fail rather than try
further shapes. -/
theorem createSession_fallback_chain (env : AuthEndpoint → Nat) :
    ((createSessionAttempts env).attempts =
      sessionChain.take (createSessionAttempts env).attempts.length) ∧
    (createSessionAttempts env).attempts ≠ [] ∧
    (∀ e ∈ (createSessionAttempts env).attempts.dropLast, env e = 404) ∧
    (∀ le, (createSessionAttempts env).attempts.getLast? = some le →
      (createSessionAttempts env).finalStatus = env le) ∧
    ((createSessionAttempts env).finalStatus = 404 →
      (createSessionAttempts env).attempts = sessionChain) ∧
    (∀ le, (createSessionAttempts env).attempts.getLast? = some le →
      respOk (env le) = false → (createSessionEvents env).2 = false) := by
  by_cases h1 : env .v1Session = 404 <;>
    by_cases h2 : env .v1Login = 404 <;>
      by_cases h3 : env .rootSession = 404 <;>
        simp [createSessionAttempts, createSessionEvents, sessionChain, h1, h2, h3]

/-- Witness for C8 at a concrete environment where only the primary
endpoint is absent. -/
theorem createSession_fallback_chain_witness :
    (createSessionAttempts (fun e => if e = .v1Session then 404 else 200)).attempts =
      sessionChain.take
        (createSessionAttempts (fun e => if e = .v1Session then 404 else 200)).attempts.length :=
  (createSession_fallback_chain _).1

/-- C9: with nonempty email and master password, a failing register
endpoint makes `registerUser` throw after only the register POST — no
session-creation call and no persisted session; and whenever
`registerUser` returns normally, the register endpoint succeeded and the
call sequence was the register POST, then the session-creation chain,
then persisting the session, before the registration response is
returned. -/
theorem registerUser_session (email mp : String) (registerStatus : Nat)
    (env : AuthEndpoint → Nat) (he : email ≠ "") (hm : mp ≠ "") :
    (respOk registerStatus = false →
      registerUserModel email mp registerStatus env = ([.postRegister], false)) ∧
    ((registerUserModel email mp registerStatus env).2 = true →
      respOk registerStatus = true ∧
      registerUserModel email mp registerStatus env =
        (ApiEv.postRegister ::
          ((createSessionAttempts env).attempts.map ApiEv.postAuth ++
            [ApiEv.saveSession]), true)) := by
  constructor
  · intro hr
    simp [registerUserModel, he, hm, hr]
  · intro hok
    by_cases hr : respOk registerStatus
    · refine ⟨hr, ?_⟩
      simp only [registerUserModel, he, hm, if_neg he, if_neg hm, if_pos hr,
        createSessionEvents] at hok ⊢
      by_cases hs : respOk (createSessionAttempts env).finalStatus
      · simp [hs]
      · simp [hs] at hok
    · simp [registerUserModel, he, hm, hr] at hok

/-- Witness for C9 at concrete inputs where registration and the primary
session endpoint both succeed. -/
theorem registerUser_session_witness :
    registerUserModel "a@b" "pw" 200 (fun _ => 200) =
      ([ApiEv.postRegister, ApiEv.postAuth .v1Session, ApiEv.saveSession], true) := by
  have h := registerUser_session "a@b" "pw" 200 (fun _ => 200) (by decide) (by decide)
  have hok : (registerUserModel "a@b" "pw" 200 (fun _ => 200)).2 = true := by decide
  rw [(h.2 hok).2]
  decide

/-- C10: the PUT body of `updateVault` contains the `vault_version` member
exactly when the caller supplied a numeric vault_version argument, and
with no version supplied the body holds only `encrypted_vault`. -/
theorem updateVault_payload_version (ev : String) (vv : Option Nat) :
    ("vault_version" ∈ (updateVaultPayload ev vv).map Prod.fst ↔ vv ≠ none) ∧
    (vv = none → updateVaultPayload ev vv = [("encrypted_vault", JsonVal.str ev)]) := by
  cases vv <;> simp [updateVaultPayload]

/-- Witness for C10 at a concrete body with and without a version. -/
theorem updateVault_payload_version_witness :
    ("vault_version" ∈ (updateVaultPayload "blob" (some 3)).map Prod.fst ↔
      (some 3 : Option Nat) ≠ none) ∧
    ((none : Option Nat) = none →
      updateVaultPayload "blob" none = [("encrypted_vault", JsonVal.str "blob")]) :=
  ⟨(updateVault_payload_version "blob" (some 3)).1,
    (updateVault_payload_version "blob" none).2⟩


end ZCloudPass
